import Mathlib

/-!
Verification of the orchestration core of the Chatbot_Agent repository.

The development shallowly embeds the pure control-flow parts of the source:

* `orchestrator.py`: `check_convergence`, `handle_convergence`,
  `handle_manager_stop`, `run_worker_agent` (its registry-lookup and
  state-update behaviour), `trim_history`, `MAX_MESSAGES`;
* `utils.py`: `filter_output`;
* `agents/registry/agent.py`: the registry dictionary, `register`,
  `get_agent_descriptions`, `get_agent`;
* `agents/registry/registration.py`: `register_agents` (the concrete
  registration sequence, with the source description strings verbatim);
* `agents/fusion_Analytics/smart_db_updater.py`: `should_update`,
  `SmartDBUpdater.update_now` (cooldown gate);
* `examples.py`: `normalize` and `match_example_request`.

External collaborators are abstracted exactly at the boundaries the source
crosses out of the repository: a crewai `Crew.kickoff()` call (an LLM
invocation) is a parameter supplying the structured value it returns, and
`difflib.SequenceMatcher.ratio()` (Python standard library) is a parameter
supplying the similarity score.  All repository-side logic around those
calls is embedded from the source.

Python JSON-like runtime values are modelled by `PyVal`; mutation of
Python dictionaries and lists is modelled by explicit state passing.
-/

/-- Model of the Python runtime values that flow through the orchestrator:
`None`, booleans, integers, strings, lists and (insertion-ordered)
string-keyed dictionaries, as produced by `json_dict` outputs. -/
inductive PyVal where
  | none
  | bool (b : Bool)
  | num (n : Int)
  | str (s : String)
  | list (xs : List PyVal)
  | dict (kvs : List (String × PyVal))

/-- Decidable equality for `PyVal` (Python deep value equality `==`),
written by hand because the nested occurrences of `List` prevent the
automatic derivation. -/
def PyVal.decEq : (a b : PyVal) → Decidable (a = b)
  | .none, .none => isTrue rfl
  | .bool a, .bool b =>
      if h : a = b then isTrue (h ▸ rfl) else isFalse (fun e => h (PyVal.bool.inj e))
  | .num a, .num b =>
      if h : a = b then isTrue (h ▸ rfl) else isFalse (fun e => h (PyVal.num.inj e))
  | .str a, .str b =>
      if h : a = b then isTrue (h ▸ rfl) else isFalse (fun e => h (PyVal.str.inj e))
  | .list [], .list [] => isTrue rfl
  | .list [], .list (_ :: _) => isFalse (fun e => List.noConfusion (PyVal.list.inj e))
  | .list (_ :: _), .list [] => isFalse (fun e => List.noConfusion (PyVal.list.inj e))
  | .list (x :: xs), .list (y :: ys) =>
      match PyVal.decEq x y, PyVal.decEq (.list xs) (.list ys) with
      | isTrue h1, isTrue h2 => isTrue (by rw [h1, (PyVal.list.inj h2 : xs = ys)])
      | isFalse h1, _ => isFalse (fun e => h1 (List.cons.inj (PyVal.list.inj e)).1)
      | _, isFalse h2 =>
          isFalse (fun e => h2 (congrArg PyVal.list (List.cons.inj (PyVal.list.inj e)).2))
  | .dict [], .dict [] => isTrue rfl
  | .dict [], .dict (_ :: _) => isFalse (fun e => List.noConfusion (PyVal.dict.inj e))
  | .dict (_ :: _), .dict [] => isFalse (fun e => List.noConfusion (PyVal.dict.inj e))
  | .dict ((k1, v1) :: kvs1), .dict ((k2, v2) :: kvs2) =>
      match instDecidableEqString k1 k2, PyVal.decEq v1 v2, PyVal.decEq (.dict kvs1) (.dict kvs2) with
      | isTrue hk, isTrue hv, isTrue ht =>
          isTrue (by rw [hk, hv, (PyVal.dict.inj ht : kvs1 = kvs2)])
      | isFalse hk, _, _ =>
          isFalse (fun e => hk (congrArg Prod.fst (List.cons.inj (PyVal.dict.inj e)).1))
      | _, isFalse hv, _ =>
          isFalse (fun e => hv (congrArg Prod.snd (List.cons.inj (PyVal.dict.inj e)).1))
      | _, _, isFalse ht =>
          isFalse (fun e => ht (congrArg PyVal.dict (List.cons.inj (PyVal.dict.inj e)).2))
  | .none, .bool _ => isFalse (fun e => PyVal.noConfusion e)
  | .none, .num _ => isFalse (fun e => PyVal.noConfusion e)
  | .none, .str _ => isFalse (fun e => PyVal.noConfusion e)
  | .none, .list _ => isFalse (fun e => PyVal.noConfusion e)
  | .none, .dict _ => isFalse (fun e => PyVal.noConfusion e)
  | .bool _, .none => isFalse (fun e => PyVal.noConfusion e)
  | .bool _, .num _ => isFalse (fun e => PyVal.noConfusion e)
  | .bool _, .str _ => isFalse (fun e => PyVal.noConfusion e)
  | .bool _, .list _ => isFalse (fun e => PyVal.noConfusion e)
  | .bool _, .dict _ => isFalse (fun e => PyVal.noConfusion e)
  | .num _, .none => isFalse (fun e => PyVal.noConfusion e)
  | .num _, .bool _ => isFalse (fun e => PyVal.noConfusion e)
  | .num _, .str _ => isFalse (fun e => PyVal.noConfusion e)
  | .num _, .list _ => isFalse (fun e => PyVal.noConfusion e)
  | .num _, .dict _ => isFalse (fun e => PyVal.noConfusion e)
  | .str _, .none => isFalse (fun e => PyVal.noConfusion e)
  | .str _, .bool _ => isFalse (fun e => PyVal.noConfusion e)
  | .str _, .num _ => isFalse (fun e => PyVal.noConfusion e)
  | .str _, .list _ => isFalse (fun e => PyVal.noConfusion e)
  | .str _, .dict _ => isFalse (fun e => PyVal.noConfusion e)
  | .list _, .none => isFalse (fun e => PyVal.noConfusion e)
  | .list _, .bool _ => isFalse (fun e => PyVal.noConfusion e)
  | .list _, .num _ => isFalse (fun e => PyVal.noConfusion e)
  | .list _, .str _ => isFalse (fun e => PyVal.noConfusion e)
  | .list _, .dict _ => isFalse (fun e => PyVal.noConfusion e)
  | .dict _, .none => isFalse (fun e => PyVal.noConfusion e)
  | .dict _, .bool _ => isFalse (fun e => PyVal.noConfusion e)
  | .dict _, .num _ => isFalse (fun e => PyVal.noConfusion e)
  | .dict _, .str _ => isFalse (fun e => PyVal.noConfusion e)
  | .dict _, .list _ => isFalse (fun e => PyVal.noConfusion e)
termination_by a _ => sizeOf a

instance : DecidableEq PyVal := PyVal.decEq

/-- Python truthiness (`if x:`) for the modelled values: `None`, `False`,
`0`, the empty string, the empty list and the empty dict are falsy. -/
def truthy : PyVal → Bool
  | .none => false
  | .bool b => b
  | .num n => n != 0
  | .str s => s.data != []
  | .list xs => xs != []
  | .dict kvs => kvs != []

/-- First value stored under `key` in an association list, Python
`d.get(key)` / `d[key]` lookup order (dict keys are unique in Python, so
first match is the match). -/
def dget {α : Type} : List (String × α) → String → Option α
  | [], _ => Option.none
  | (k, v) :: rest, key => if k = key then some v else dget rest key

/-- Python `key in d`. -/
def dcontains {α : Type} (d : List (String × α)) (key : String) : Bool :=
  (dget d key).isSome

/-- Python `d[key] = v`: replace the value of an existing key in place,
otherwise append the new pair at the end (insertion order). -/
def dset {α : Type} : List (String × α) → String → α → List (String × α)
  | [], key, v => [(key, v)]
  | (k, v0) :: rest, key, v =>
      if k = key then (k, v) :: rest else (k, v0) :: dset rest key v

/-- One entry of the per-run `history` list built by the orchestrator:
`{"agent": ..., "output": ...}` (`orchestrator.py`). -/
structure Entry (α : Type) where
  agent : String
  output : α

/-- The list comprehension inside `check_convergence` (`orchestrator.py`
lines 16-19): outputs of entries whose agent is neither `"ManagerAgent"`
nor `"GeneralQAAgent"`, in reverse chronological order. -/
def workerOutputs {α : Type} (history : List (Entry α)) : List α :=
  (history.reverse.filter
    (fun e => !(e.agent == "ManagerAgent" || e.agent == "GeneralQAAgent"))).map
    (fun e => e.output)

/-- The guard `len(last_outputs) == N and all(r == last_outputs[0] for r in
last_outputs)` of `check_convergence` (`orchestrator.py` line 20); Python
evaluates `last_outputs[0]` lazily, so an empty list only checks `0 == N`. -/
def checkLastOutputs {α : Type} [DecidableEq α] (last_outputs : List α) (N : Nat) : Bool :=
  match last_outputs with
  | [] => last_outputs.length == N
  | r0 :: _ => last_outputs.length == N && last_outputs.all (fun r => r == r0)

/-- Embedding of `check_convergence(history, N=2)` (`orchestrator.py`
lines 14-22). -/
def check_convergence {α : Type} [DecidableEq α] (history : List (Entry α)) (N : Nat) : Bool :=
  if N * 2 ≤ history.length then
    checkLastOutputs ((workerOutputs history).take N) N
  else
    false

/-- History used to refute the length-independence part of the claim about
`check_convergence`: two worker entries with identical outputs and no
manager entries. -/
def shortWorkerHistory : List (Entry Nat) :=
  [⟨"OrgChartAgent", 7⟩, ⟨"OrgChartAgent", 7⟩]

/-- The backwards scan shared by `handle_convergence` (`orchestrator.py`
lines 25-32) and `handle_manager_stop` (lines 78-85): the output of the most
recent history entry whose agent is neither `"GeneralQAAgent"` nor
`"ManagerAgent"`, or Python `None` when no such entry exists. -/
def lastWorkerOutput (history : List (Entry PyVal)) : PyVal :=
  match history.reverse.find?
      (fun e => !(e.agent == "GeneralQAAgent" || e.agent == "ManagerAgent")) with
  | some e => e.output
  | Option.none => PyVal.none

/-- Embedding of `handle_convergence(history, user_request, final_outputs)`
(`orchestrator.py` lines 24-55).  The summarizer crew call
(`final_crew.kickoff()`, an LLM invocation) is abstracted by `summ`, the
`json_dict` value it returns; the function yields the updated
`final_outputs` and `history`.  The summarizer is tasked only when the
scanned-for last worker output is truthy (`if last_agent_result:`); the
`System` convergence note is always appended. -/
def handle_convergence (summ : PyVal) (history : List (Entry PyVal))
    (final_outputs : List (String × PyVal)) :
    List (String × PyVal) × List (Entry PyVal) :=
  let last_agent_result := lastWorkerOutput history
  let step :=
    if truthy last_agent_result then
      (dset final_outputs "GeneralQAAgent" summ, history ++ [⟨"GeneralQAAgent", summ⟩])
    else
      (final_outputs, history)
  (step.1,
    step.2 ++ [⟨"System", PyVal.str "Convergence detected: repeated identical results. Stopping."⟩])

/-- Embedding of `handle_manager_stop(user_request, history, final_outputs)`
(`orchestrator.py` lines 76-114).  Both prompt branches end in the same
state update, so the scanned-for last worker output only changes the prompt
text, not the state; `summ` abstracts the summarizer crew result. -/
def handle_manager_stop (summ : PyVal) (history : List (Entry PyVal))
    (final_outputs : List (String × PyVal)) :
    List (String × PyVal) × List (Entry PyVal) :=
  if dcontains final_outputs "GeneralQAAgent" then
    (final_outputs, history)
  else
    (dset final_outputs "GeneralQAAgent" summ, history ++ [⟨"GeneralQAAgent", summ⟩])

/-- History used to refute the summarizer-entry invariant: the run converges
(two identical worker outputs) but the repeated worker output is Python
`None`, which is falsy. -/
def convergedFalsyHistory : List (Entry PyVal) :=
  [⟨"ManagerAgent", PyVal.dict [("next_agent", PyVal.str "OrgChartAgent")]⟩,
    ⟨"OrgChartAgent", PyVal.none⟩,
    ⟨"ManagerAgent", PyVal.dict [("next_agent", PyVal.str "OrgChartAgent")]⟩,
    ⟨"OrgChartAgent", PyVal.none⟩]

/-- Embedding of `MAX_MESSAGES = 2*3` (`orchestrator.py` line 12). -/
def MAX_MESSAGES : Nat := 2 * 3

/-- Embedding of `trim_history(conversation_history)` (`orchestrator.py`
lines 175-180): Python `conversation_history[-MAX_MESSAGES:]` is the list
of the last `MAX_MESSAGES` elements, i.e. `drop (length - MAX_MESSAGES)`;
the unused slice `conversation_history[:-MAX_MESSAGES]` binds a local the
source never returns. -/
def trim_history {α : Type} (conversation_history : List α) : List α :=
  if conversation_history.length ≤ MAX_MESSAGES then
    conversation_history
  else
    conversation_history.drop (conversation_history.length - MAX_MESSAGES)

/-- The per-agent display field chosen by `filter_output` (`utils.py` lines
62-68): the navigation agent contributes `navigation_link`, the (legacy)
SQL agent `HTML_TABLE_DATA`, every other agent `response`. -/
def filterField (agent_name : String) : String :=
  if agent_name = "PageNavigatorAgent" then "navigation_link"
  else if agent_name = "SQLBuilderAgent" then "HTML_TABLE_DATA"
  else "response"

/-- One iteration of the `filter_output` loop (`utils.py` lines 56-68): a
`None` response is passed through as `None`; a dict response is reduced to
its display field via `response.get(...)` (whose default is `None`); any
other value would make `response.get` raise `AttributeError`, modelled as
the error outcome. -/
def filterEntry (agent_name : String) (response : PyVal) : Except Unit PyVal :=
  match response with
  | PyVal.none => Except.ok PyVal.none
  | PyVal.dict kvs => Except.ok ((dget kvs (filterField agent_name)).getD PyVal.none)
  | _ => Except.error ()

/-- Embedding of `filter_output(final_outputs)` (`utils.py` lines 54-69):
builds the filtered map entry by entry in input order. -/
def filter_output : List (String × PyVal) → Except Unit (List (String × PyVal))
  | [] => Except.ok []
  | (agent_name, response) :: rest =>
      match filterEntry agent_name response, filter_output rest with
      | Except.ok v, Except.ok out => Except.ok ((agent_name, v) :: out)
      | Except.error e, _ => Except.error e
      | Except.ok _, Except.error e => Except.error e

/-- A value that can legally sit in a final output map: agent outputs are
`json_dict` results, i.e. Python `None` or a JSON dict. -/
def jsonLike (v : PyVal) : Prop := v = PyVal.none ∨ ∃ kvs, v = PyVal.dict kvs

/-- The concrete navigation output map used to instantiate C8. -/
def navOutputMap : List (String × PyVal) :=
  [("PageNavigatorAgent",
    PyVal.dict [("navigation_link", PyVal.str "/dashboard"),
      ("response", PyVal.str "Here is the dashboard page.")])]

/-- The concrete output map (one dict response, one `None` response) used to
instantiate C9. -/
def mixedOutputMap : List (String × PyVal) :=
  [("OrgChartAgent", PyVal.dict [("response", PyVal.str "5 direct reports")]),
    ("FusionAnalyticsAgent", PyVal.none)]

/-- Python substring test helper: `sub` is a prefix of `hay` (character
lists). -/
def prefixOfL : List Char → List Char → Bool
  | [], _ => true
  | _ :: _, [] => false
  | a :: as, b :: bs => a == b && prefixOfL as bs

/-- Occurrence scan for the Python substring test: `sub` is a prefix of
some suffix of the haystack. -/
def strInAux (sub : List Char) : List Char → Bool
  | [] => prefixOfL sub []
  | c :: rest => prefixOfL sub (c :: rest) || strInAux sub rest

/-- Python `sub in hay` on strings: `sub` occurs contiguously in `hay`
(the empty string occurs in every string). -/
def pyStrIn (sub hay : String) : Bool := strInAux sub.data hay.data

/-- Registry record (`agents/registry/agent.py` lines 6-10).  The source
`AgentInfo` also carries the crewai `agent` handler and the pydantic
`output` class; both are opaque external objects whose only role in the
verified claims is being present under a name, which the registry entry
itself models. -/
structure AgentInfo where
  description : String

/-- Embedding of `register(agent, output, agent_name, description)`
(`agents/registry/agent.py` lines 14-24): `AGENT_REGISTRY[name] =
AgentInfo(...)`, i.e. an upsert keyed by the chosen name
(`register_agents` always passes an explicit name). -/
def register (reg : List (String × AgentInfo)) (agent_name : String)
    (description : String) : List (String × AgentInfo) :=
  dset reg agent_name ⟨description⟩

/-- Embedding of `get_agent(name)` (`agents/registry/agent.py` lines
30-33): presence of the registry entry; the source returns the stored
crewai agent or `None`. -/
def get_agent (reg : List (String × AgentInfo)) (name : String) : Option AgentInfo :=
  dget reg name

/-- Embedding of `get_agent_descriptions()` (`agents/registry/agent.py`
lines 26-28).  The source filter is `if name not in ("Manager")`:
`("Manager")` is the plain string `"Manager"`, so the test is Python
substring membership of the name in `"Manager"`, not a tuple membership
test. -/
def get_agent_descriptions (reg : List (String × AgentInfo)) : List (String × String) :=
  (reg.filter (fun p => !(pyStrIn p.1 "Manager"))).map (fun p => (p.1, p.2.description))

def pageNavigatorDesc : String :=
  "Handles navigation requests and provides appropriate page links and user-friendly information. Use when user wants to move to different pages or sections of the application, or requests a summary of available pages. Final output must be a valid JSON object: \x7b\x27navigation_link\x27: \x27<link or empty string>\x27, \x27response\x27: \x27<user-friendly description>\x27\x7d. The \x7b navigation_link \x7d field should be the navigation link (e.g., \x27/\x27, \x27/register\x27, \x27/admin/user-management\x27) or an empty string if no navigation is needed. The \x7b response \x7d field should contain instructions, a summary, or user-friendly information about the link or requested pages."

def generalQADesc : String :=
  "Summarizes technical outputs and database results in user-friendly language. Use for explaining complex data or providing final summaries to users."

def fusionAnalyticsDesc : String :=
  "Analyzes Oracle Fusion expense report data from the expense_report_data table. Specializes in: - Employee spending patterns and profiles - Policy violation detection and analysis (DAILY_LIMIT, MONTHLY_LIMIT, INDIVIDUAL_LIMIT, RECEIPT_MISSING) - Audit compliance tracking and risk assessment - Merchant spending analysis and preferences - Financial trends and spending patterns over time - Receipt compliance and amount verification - Multi-currency expense analysis - Expense category breakdowns (Travel, Education, Food, etc.) Use for questions about: expense reports, spending analytics, violation patterns, audit flags, employee expense behavior, merchant relationships, or any financial analysis from expense data. Always executes actual SQL queries and returns real data with insights. Final output: \x7b\x27query_executed\x27: \x27<SQL query>\x27, \x27User_Frendly_response\x27: \x27<insights>\x27, \x27HTML_TABLE_DATA\x27: \x27<table>\x27\x7d"

def absenceAnalyticsDesc : String :=
  "HCM for Analyzes Oracle Fusion employee absence and leave data from the absence_report_data table. Specializes in: - Employee leave balance tracking and analysis - Leave plan utilization patterns (Annual Leave, Day in Lieu, etc.) - Workforce availability and leave trends - Department-level leave analysis - High balance employees (potential leave liability) - Zero balance employees (leave exhaustion monitoring) - Leave accrual period tracking - Business unit leave distribution - Grade/job level leave patterns Use for questions about: leave balances, absence patterns, leave plans, workforce availability, employee time-off analysis, department leave trends, or any HR analytics related to employee absence. Always executes actual SQL queries and returns real data with insights. Final output: \x7b\x27User_Friendly_response\x27: \x27<insights>\x27, \x27HTML_TABLE_DATA\x27: \x27<table>\x27\x7d"

def orgChartDesc : String :=
  "Analyzes employee organizational hierarchy from the employee_hierarchy table. Specializes in: - Manager-employee relationships and reporting lines - Team structures and composition - Department organization and headcount - Organizational hierarchy and reporting chains - Manager span of control analysis - Employee lookup by name or person number - Direct reports and indirect reports mapping - Cross-department organizational analysis Use for questions about: who reports to whom, team sizes, manager assignments, department structures, organizational hierarchy, reporting relationships, org charts, team composition, or any queries about the organizational structure and employee-manager relationships. Always executes actual SQL queries with smart auto-updates from Oracle Fusion. Final output: \x7b\x27response\x27: \x27<insights>\x27, \x27statistics\x27: \x7b\x27total_employees\x27: N, \x27unique_managers\x27: M, \x27unique_departments\x27: D\x7d\x7d"

def managerDesc : String :=
  "Orchestrates the conversation flow and decides which agent should handle each request based on user input and conversation context."

/-- Embedding of `register_agents()`
(`agents/registry/registration.py` lines 22-123): the registry produced by
the six `register` calls, in source order, with the source description
strings verbatim. -/
def register_agents : List (String × AgentInfo) :=
  register (register (register (register (register (register []
    "PageNavigatorAgent" pageNavigatorDesc)
    "GeneralQAAgent" generalQADesc)
    "FusionAnalyticsAgent" fusionAnalyticsDesc)
    "AbsenceAnalyticsAgent" absenceAnalyticsDesc)
    "OrgChartAgent" orgChartDesc)
    "ManagerAgent" managerDesc

/-- Python repr quoting of one agent name inside `list(...)` formatting. -/
def quoteKey (k : String) : String := "\x27" ++ k ++ "\x27"

/-- Comma-separated reprs of the agent names, as Python formats the
elements of `list(registered_agents.keys())`. -/
def joinKeys : List String → String
  | [] => ""
  | [k] => quoteKey k
  | k :: rest => quoteKey k ++ ", " ++ joinKeys rest

/-- Python `str(list(...))`: bracketed, comma-separated quoted names. -/
def pyListRepr (keys : List String) : String := "[" ++ joinKeys keys ++ "]"

/-- The `ValueError` message raised by `run_worker_agent`
(`orchestrator.py` line 121): an f-string interpolating the offending
agent name and `list(registered_agents.keys())`. -/
def unknownAgentMessage (next_agent_name : String) (keys : List String) : String :=
  "Unknown agent requested by Manager: " ++ next_agent_name ++
    ". Available agents: " ++ pyListRepr keys

/-- Embedding of `run_worker_agent(...)` (`orchestrator.py` lines
116-173), restricted to its registry lookup and state effects.  When the
lookup misses, the function raises before touching any state, so the error
outcome carries the unchanged `final_outputs` and `history` (the raise-time
state).  On a hit, the task construction and `worker_crew.kickoff()` (an
LLM invocation) produce `worker_result`, the `json_dict` abstracted as a
parameter; the output map gains the worker entry and the history the
`{"agent": ..., "output": ...}` record. -/
def run_worker_agent (reg : List (String × AgentInfo)) (worker_result : PyVal)
    (next_agent_name : String) (final_outputs : List (String × PyVal))
    (history : List (Entry PyVal)) :
    Except (String × List (String × PyVal) × List (Entry PyVal))
      (PyVal × List (String × PyVal) × List (Entry PyVal)) :=
  match get_agent reg next_agent_name with
  | Option.none =>
      Except.error
        (unknownAgentMessage next_agent_name ((get_agent_descriptions reg).map Prod.fst),
          final_outputs, history)
  | some _ =>
      Except.ok (worker_result, dset final_outputs next_agent_name worker_result,
        history ++ [⟨next_agent_name, worker_result⟩])

/-- Contiguous-substring occurrence, used to state that an error message
surfaces a name. -/
def strHasSub (hay sub : String) : Prop :=
  ∃ p s, hay.data = p ++ sub.data ++ s

/-- The module-level state of the cooldown gate (`smart_db_updater.py`): the
globals `LAST_UPDATE_TIME`, `UPDATE_COUNT` and `UPDATE_IN_PROGRESS`.
Timestamps are modelled as integer instants. -/
structure CooldownState where
  last_update_time : Option Int
  update_count : Nat
  update_in_progress : Bool

/-- Embedding of `SmartDBUpdater.should_update()` (`smart_db_updater.py`
lines 66-84): true on the first ever call, and otherwise iff the elapsed
time since the last completed update is not below the cooldown. -/
def should_update (cooldown_seconds now : Int) (s : CooldownState) : Bool :=
  match s.last_update_time with
  | Option.none => true
  | some t => if now - t < cooldown_seconds then false else true

/-- Embedding of `SmartDBUpdater.update_now(force, user_id)`
(`smart_db_updater.py` lines 86-144).  `update_function` is the registered
refresh callback behaviour on this call: absent (`None`), raising
(`Except.error`), or returning a status value the source never inspects
(`Except.ok`).  The result pairs what the method gives back to the caller
(always a `return`, `Except.ok`, because the `except Exception` arm
catches the callback exception and returns `False`) with the updated
global state; the `finally` arm always clears `UPDATE_IN_PROGRESS`. -/
def update_now {ε : Type} (cooldown_seconds : Int) (force : Bool) (now : Int)
    (update_function : Option (Except ε PyVal)) (s : CooldownState) :
    Except ε Bool × CooldownState :=
  if s.update_in_progress then
    (Except.ok false, s)
  else if !force && !should_update cooldown_seconds now s then
    (Except.ok false, s)
  else
    match update_function with
    | Option.none => (Except.ok false, { s with update_in_progress := false })
    | some (Except.error _) => (Except.ok false, { s with update_in_progress := false })
    | some (Except.ok _) =>
        (Except.ok true,
          { last_update_time := some now, update_count := s.update_count + 1,
            update_in_progress := false })

/-- Fresh gate state: no update has ever run. -/
def gateStart : CooldownState := ⟨Option.none, 0, false⟩

/-- The `status` field of a returned status record, used to state the
data-refresh collaborator interface of the spec. -/
def statusOf (v : PyVal) : Option PyVal :=
  match v with
  | PyVal.dict kvs => dget kvs "status"
  | _ => Option.none

/-- A status record with `status: "error"`, as the refresh collaborators
return on failure. -/
def errorStatusRecord : PyVal :=
  PyVal.dict [("status", PyVal.str "error"), ("message", PyVal.str "refresh failed")]

/-- The characters of Python `string.punctuation`. -/
def punctuationChars : List Char :=
  "!\"#$%&\x27()*+,-./:;<=>?@[\\]^_\x60\x7b|\x7d~".data

/-- The ASCII whitespace characters stripped by Python `str.strip()`. -/
def pyWhitespaceChar (c : Char) : Bool :=
  c == ' ' || c == '\t' || c == '\n' || c == '\r' || c == '\x0b' || c == '\x0c'

/-- Python `str.strip()`: drop leading and trailing whitespace. -/
def pyStrip (s : String) : String :=
  String.mk (((s.data.dropWhile pyWhitespaceChar).reverse.dropWhile pyWhitespaceChar).reverse)

/-- Embedding of `normalize(text)` (`examples.py` lines 209-212):
lowercase, remove punctuation characters, strip surrounding whitespace.
(The source name `normalize` is taken by Mathlib, hence the suffix.) -/
def normalizeText (text : String) : String :=
  pyStrip (String.mk ((text.data.map Char.toLower).filter
    (fun c => !(punctuationChars.contains c))))

/-- One element of the curated `examples` list (`examples.py`): a stored
request with its canned filtered output map. -/
structure ExampleEntry where
  user_request : String
  filtered_output : List (String × String)

/-- The scanning loop of `match_example_request` (`examples.py` lines
226-233): fold over the examples keeping `(best_match, best_ratio)`,
updating only on a strictly greater ratio.  `score` abstracts
`similarity_ratio` (`difflib.SequenceMatcher.ratio()`, Python standard
library, external to the repository). -/
def selectBest (score : String → String → ℚ) (user_normalized : String) :
    List ExampleEntry → Option ExampleEntry × ℚ → Option ExampleEntry × ℚ
  | [], acc => acc
  | ex :: rest, acc =>
      selectBest score user_normalized rest
        (if acc.2 < score user_normalized (normalizeText ex.user_request) then
          (some ex, score user_normalized (normalizeText ex.user_request))
        else acc)

/-- Embedding of `match_example_request(user_request, examples, threshold)`
(`examples.py` lines 219-236): scan with `(None, 0.0)` as the initial
accumulator, then return the best match iff the best ratio meets the
threshold (the source default is `0.5`). -/
def match_example_request (score : String → String → ℚ) (user_request : String)
    (examples : List ExampleEntry) (threshold : ℚ) : Option ExampleEntry :=
  if threshold ≤ (selectBest score (normalizeText user_request) examples (Option.none, 0)).2 then
    (selectBest score (normalizeText user_request) examples (Option.none, 0)).1
  else
    Option.none

/-- The concrete example entry used to instantiate C10. -/
def exampleDashboard : ExampleEntry :=
  ⟨"Open the Dashboard for me.", [("PageNavigatorAgent", "/dashboard")]⟩

/-- A concrete similarity score used to instantiate C10: full score on
equal normalized strings, zero otherwise. -/
def exactScore (a b : String) : ℚ := if a = b then 1 else 0

theorem workerOutputs_example :
    workerOutputs [⟨"ManagerAgent", (1 : Nat)⟩, ⟨"OrgChartAgent", 2⟩, ⟨"GeneralQAAgent", 3⟩,
      ⟨"OrgChartAgent", 4⟩] = [4, 2] := by
  decide

theorem checkLastOutputs_iff {α : Type} [DecidableEq α] (l : List α) (N : Nat) :
    checkLastOutputs l N = true ↔ l.length = N ∧ ∀ x ∈ l, ∀ y ∈ l, x = y := by
  cases l with
  | nil =>
      simp only [checkLastOutputs, List.length_nil, beq_iff_eq, List.not_mem_nil,
        false_implies, implies_true, and_true]
  | cons r0 rest =>
      rw [checkLastOutputs, Bool.and_eq_true, beq_iff_eq, List.all_eq_true]
      constructor
      · rintro ⟨hlen, hall⟩
        refine ⟨hlen, fun x hx y hy => ?_⟩
        have hx' := hall x hx
        have hy' := hall y hy
        rw [beq_iff_eq] at hx' hy'
        rw [hx', hy']
      · rintro ⟨hlen, hall⟩
        refine ⟨hlen, fun x hx => ?_⟩
        rw [beq_iff_eq]
        exact hall x hx r0 (List.mem_cons_self r0 rest)

theorem check_convergence_iff {α : Type} [DecidableEq α] (history : List (Entry α)) (N : Nat) :
    check_convergence history N = true ↔
      N * 2 ≤ history.length ∧ N ≤ (workerOutputs history).length ∧
        ∀ x ∈ (workerOutputs history).take N, ∀ y ∈ (workerOutputs history).take N, x = y := by
  rw [check_convergence]
  by_cases hlen : N * 2 ≤ history.length
  · rw [if_pos hlen, checkLastOutputs_iff]
    have hmin : ((workerOutputs history).take N).length = min N (workerOutputs history).length :=
      List.length_take N (workerOutputs history)
    constructor
    · rintro ⟨h1, h2⟩
      exact ⟨hlen, by omega, h2⟩
    · rintro ⟨-, h1, h2⟩
      exact ⟨by omega, h2⟩
  · rw [if_neg hlen]
    simp only [Bool.false_eq_true, false_iff]
    rintro ⟨h, -⟩
    exact hlen h

/-- C1 counterexample: on a history made of two identical worker outputs and
nothing else, at least N = 2 worker outputs exist and they are all equal, yet
`check_convergence` returns false, because of its extra guard
`len(history) >= N * 2` on the total history length (`orchestrator.py`
line 15).  The claim as stated would force the result true here. -/
theorem check_convergence_short_history_cex :
    2 ≤ (workerOutputs shortWorkerHistory).length ∧
      (∀ x ∈ (workerOutputs shortWorkerHistory).take 2,
        ∀ y ∈ (workerOutputs shortWorkerHistory).take 2, x = y) ∧
      check_convergence shortWorkerHistory 2 = false := by
  refine ⟨by decide, by decide, by decide⟩

/-- C1 (amended): for every run history and every N ≥ 2,
`check_convergence` returns true iff the total history length is at least
2·N *and* at least N non-manager/non-summarizer outputs exist (in reverse
chronological order) *and* the first N of them are pairwise equal.  The
extra total-length condition is part of the coded behaviour. -/
theorem check_convergence_characterization {α : Type} [DecidableEq α]
    (history : List (Entry α)) (N : Nat) (hN : 2 ≤ N) :
    check_convergence history N = true ↔
      N * 2 ≤ history.length ∧ N ≤ (workerOutputs history).length ∧
        ∀ x ∈ (workerOutputs history).take N, ∀ y ∈ (workerOutputs history).take N, x = y :=
  check_convergence_iff history N

/-- Witness for `check_convergence_characterization` at a concrete
converging history. -/
theorem check_convergence_characterization_witness :
    2 ≤ 2 ∧
      (check_convergence
          [⟨"ManagerAgent", (0 : Nat)⟩, ⟨"OrgChartAgent", 7⟩,
            ⟨"ManagerAgent", 0⟩, ⟨"OrgChartAgent", 7⟩] 2 = true ↔
        2 * 2 ≤ (4 : Nat) ∧
          2 ≤ (workerOutputs [⟨"ManagerAgent", (0 : Nat)⟩, ⟨"OrgChartAgent", 7⟩,
            ⟨"ManagerAgent", 0⟩, ⟨"OrgChartAgent", 7⟩]).length ∧
          ∀ x ∈ (workerOutputs [⟨"ManagerAgent", (0 : Nat)⟩, ⟨"OrgChartAgent", 7⟩,
            ⟨"ManagerAgent", 0⟩, ⟨"OrgChartAgent", 7⟩]).take 2,
            ∀ y ∈ (workerOutputs [⟨"ManagerAgent", (0 : Nat)⟩, ⟨"OrgChartAgent", 7⟩,
              ⟨"ManagerAgent", 0⟩, ⟨"OrgChartAgent", 7⟩]).take 2, x = y) :=
  ⟨by decide,
    check_convergence_characterization
      [⟨"ManagerAgent", (0 : Nat)⟩, ⟨"OrgChartAgent", 7⟩,
        ⟨"ManagerAgent", 0⟩, ⟨"OrgChartAgent", 7⟩] 2 (by decide)⟩

theorem dget_dset_self {α : Type} (d : List (String × α)) (key : String) (v : α) :
    dget (dset d key v) key = some v := by
  induction d with
  | nil => simp [dset, dget]
  | cons p rest ih =>
      obtain ⟨k, v0⟩ := p
      by_cases hk : k = key
      · simp [dset, hk, dget]
      · simp [dset, hk, dget, ih]

theorem dcontains_dset_self {α : Type} (d : List (String × α)) (key : String) (v : α) :
    dcontains (dset d key v) key = true := by
  rw [dcontains, dget_dset_self]
  rfl

/-- C2 counterexample: this history converges (`check_convergence` fires,
so the loop terminates through the convergence path), yet
`handle_convergence` adds no `"GeneralQAAgent"` entry to the empty output
map, because the last worker output `None` fails the truthiness guard
`if last_agent_result:` and the convergence handler has no direct-answer
fallback branch (`orchestrator.py` lines 33-54). -/
theorem convergence_missing_summarizer_cex :
    check_convergence convergedFalsyHistory 2 = true ∧
      dcontains
        (handle_convergence (PyVal.dict [("response", PyVal.str "summary")])
          convergedFalsyHistory []).1 "GeneralQAAgent" = false := by
  constructor
  · rw [check_convergence_iff]
    refine ⟨by decide, ?_, ?_⟩
    · have : workerOutputs convergedFalsyHistory = [PyVal.none, PyVal.none] := rfl
      rw [this]
      decide
    · have : (workerOutputs convergedFalsyHistory).take 2 = [PyVal.none, PyVal.none] := rfl
      rw [this]
      intro x hx y hy
      rcases List.mem_cons.mp hx with h | h
      · rcases List.mem_cons.mp hy with h' | h'
        · rw [h, h']
        · rw [h, List.mem_singleton.mp h']
      · rcases List.mem_cons.mp hy with h' | h'
        · rw [List.mem_singleton.mp h, h']
        · rw [List.mem_singleton.mp h, List.mem_singleton.mp h']
  · rfl

/-- C2 (amended): the manager-stop handler always leaves a
`"GeneralQAAgent"` entry in the final output map (it tasks the summarizer
with a direct-answer prompt when no worker output is found); the
convergence handler, in contrast, has no such fallback: after it runs, the
output map has a summarizer entry iff the most recent
non-manager/non-summarizer output in the history is truthy or the map
already had one. -/
theorem stop_handlers_summarizer_entry (summ : PyVal) (history : List (Entry PyVal))
    (final_outputs : List (String × PyVal)) :
    dcontains (handle_manager_stop summ history final_outputs).1 "GeneralQAAgent" = true ∧
      (dcontains (handle_convergence summ history final_outputs).1 "GeneralQAAgent" = true ↔
        (truthy (lastWorkerOutput history) = true ∨
          dcontains final_outputs "GeneralQAAgent" = true)) := by
  constructor
  · rw [handle_manager_stop]
    by_cases h : dcontains final_outputs "GeneralQAAgent" = true
    · rw [if_pos h]
      exact h
    · rw [if_neg h]
      exact dcontains_dset_self final_outputs "GeneralQAAgent" summ
  · rw [handle_convergence]
    by_cases h : truthy (lastWorkerOutput history) = true
    · simp only [h, if_true]
      simp [dcontains_dset_self]
    · simp only [h, if_false, Bool.false_eq_true]
      simp [h]

/-- C7: trimming a history of length at most `MAX_MESSAGES` is a no-op;
trimming a longer history yields exactly `MAX_MESSAGES` entries that form
a suffix of the input (the last `MAX_MESSAGES` entries in order). -/
theorem trim_history_boundary {α : Type} (conversation_history : List α) :
    (conversation_history.length ≤ MAX_MESSAGES →
        trim_history conversation_history = conversation_history) ∧
      (MAX_MESSAGES < conversation_history.length →
        (trim_history conversation_history).length = MAX_MESSAGES ∧
          ∃ dropped, dropped ++ trim_history conversation_history = conversation_history) := by
  constructor
  · intro h
    rw [trim_history, if_pos h]
  · intro h
    rw [trim_history, if_neg (not_le.mpr h)]
    constructor
    · rw [List.length_drop]
      omega
    · exact ⟨conversation_history.take (conversation_history.length - MAX_MESSAGES),
        List.take_append_drop _ _⟩

/-- Witness for `trim_history_boundary` on a 7-element history. -/
theorem trim_history_boundary_witness :
    MAX_MESSAGES < ([10, 11, 12, 13, 14, 15, 16] : List Nat).length ∧
      (trim_history ([10, 11, 12, 13, 14, 15, 16] : List Nat)).length = MAX_MESSAGES ∧
        ∃ dropped, dropped ++ trim_history ([10, 11, 12, 13, 14, 15, 16] : List Nat) =
          [10, 11, 12, 13, 14, 15, 16] :=
  ⟨by decide, (trim_history_boundary [10, 11, 12, 13, 14, 15, 16]).2 (by decide)⟩

theorem filterEntry_ok_of_jsonLike (agent_name : String) (v : PyVal) (h : jsonLike v) :
    ∃ w, filterEntry agent_name v = Except.ok w ∧ (v = PyVal.none → w = PyVal.none) := by
  rcases h with h | ⟨kvs, h⟩
  · subst h
    exact ⟨PyVal.none, rfl, fun _ => rfl⟩
  · subst h
    exact ⟨(dget kvs (filterField agent_name)).getD PyVal.none, rfl, fun h => by cases h⟩

theorem filter_output_ok (m : List (String × PyVal)) (hm : ∀ p ∈ m, jsonLike p.2) :
    ∃ out, filter_output m = Except.ok out ∧ out.map Prod.fst = m.map Prod.fst ∧
      ∀ p ∈ m, p.2 = PyVal.none → (p.1, PyVal.none) ∈ out := by
  induction m with
  | nil => exact ⟨[], rfl, rfl, by simp⟩
  | cons p rest ih =>
      obtain ⟨agent_name, response⟩ := p
      obtain ⟨w, hw, hwn⟩ :=
        filterEntry_ok_of_jsonLike agent_name response (hm _ (List.mem_cons_self _ _))
      obtain ⟨out, hout, hkeys, hnone⟩ := ih (fun q hq => hm q (List.mem_cons_of_mem _ hq))
      refine ⟨(agent_name, w) :: out, ?_, ?_, ?_⟩
      · rw [filter_output, hw, hout]
      · simpa using hkeys
      · intro q hq hqnone
        rcases List.mem_cons.mp hq with h | h
        · subst h
          have hw' : w = PyVal.none := hwn hqnone
          rw [hw']
          exact List.mem_cons_self _ _
        · exact List.mem_cons_of_mem _ (hnone q h hqnone)

theorem filter_output_dget (m : List (String × PyVal)) (n : String)
    (kvs : List (String × PyVal)) :
    (∀ p ∈ m, jsonLike p.2) → dget m n = some (PyVal.dict kvs) →
      ∃ out, filter_output m = Except.ok out ∧
        dget out n = some ((dget kvs (filterField n)).getD PyVal.none) := by
  induction m with
  | nil =>
      intro _ h
      simp [dget] at h
  | cons p rest ih =>
      intro hm h
      obtain ⟨k, v⟩ := p
      obtain ⟨w, hw, -⟩ :=
        filterEntry_ok_of_jsonLike k v (hm _ (List.mem_cons_self _ _))
      by_cases hk : k = n
      · subst hk
        rw [dget, if_pos rfl] at h
        have hv : v = PyVal.dict kvs := Option.some.inj h
        subst hv
        obtain ⟨out, hout, -, -⟩ :=
          filter_output_ok rest (fun q hq => hm q (List.mem_cons_of_mem _ hq))
        refine ⟨(k, (dget kvs (filterField k)).getD PyVal.none) :: out, ?_, ?_⟩
        · simp only [filter_output, filterEntry, hout]
        · rw [dget, if_pos rfl]
      · rw [dget, if_neg hk] at h
        obtain ⟨out, hout, hdg⟩ := ih (fun q hq => hm q (List.mem_cons_of_mem _ hq)) h
        refine ⟨(k, w) :: out, ?_, ?_⟩
        · simp only [filter_output, hw, hout]
        · rw [dget, if_neg hk]
          exact hdg

/-- C8: whenever the final output map stores under `"PageNavigatorAgent"` a
record with `navigation_link: "/dashboard"` and some `response` text, the
filtered result for that key is exactly the scalar string `"/dashboard"`. -/
theorem filter_output_navigation_link (m : List (String × PyVal))
    (kvs : List (String × PyVal))
    (hm : ∀ p ∈ m, jsonLike p.2)
    (hnav : dget m "PageNavigatorAgent" = some (PyVal.dict kvs))
    (hlink : dget kvs "navigation_link" = some (PyVal.str "/dashboard"))
    (hresp : ∃ r, dget kvs "response" = some (PyVal.str r)) :
    ∃ out, filter_output m = Except.ok out ∧
      dget out "PageNavigatorAgent" = some (PyVal.str "/dashboard") := by
  obtain ⟨out, hout, hdg⟩ := filter_output_dget m "PageNavigatorAgent" kvs hm hnav
  refine ⟨out, hout, ?_⟩
  rw [hdg]
  have hf : filterField "PageNavigatorAgent" = "navigation_link" := rfl
  rw [hf, hlink]
  rfl

/-- Witness for `filter_output_navigation_link` on `navOutputMap`. -/
theorem filter_output_navigation_link_witness :
    dget navOutputMap "PageNavigatorAgent" =
        some (PyVal.dict [("navigation_link", PyVal.str "/dashboard"),
          ("response", PyVal.str "Here is the dashboard page.")]) ∧
      ∃ out, filter_output navOutputMap = Except.ok out ∧
        dget out "PageNavigatorAgent" = some (PyVal.str "/dashboard") :=
  ⟨rfl,
    filter_output_navigation_link navOutputMap
      [("navigation_link", PyVal.str "/dashboard"),
        ("response", PyVal.str "Here is the dashboard page.")]
      (by
        intro p hp
        rw [List.mem_singleton.mp hp]
        exact Or.inr ⟨_, rfl⟩)
      rfl rfl ⟨"Here is the dashboard page.", rfl⟩⟩

/-- C9: on any final output map (whose values are `json_dict` results, i.e.
`None` or a dict), `filter_output` succeeds, keeps exactly the agent-name
keys of the input in order, and maps every agent whose stored response is
`None` to `None` instead of raising or dropping the key. -/
theorem filter_output_keys_preserved (m : List (String × PyVal))
    (hm : ∀ p ∈ m, jsonLike p.2) :
    ∃ out, filter_output m = Except.ok out ∧ out.map Prod.fst = m.map Prod.fst ∧
      ∀ p ∈ m, p.2 = PyVal.none → (p.1, PyVal.none) ∈ out :=
  filter_output_ok m hm

/-- Witness for `filter_output_keys_preserved` on `mixedOutputMap`. -/
theorem filter_output_keys_preserved_witness :
    ∃ out, filter_output mixedOutputMap = Except.ok out ∧
      out.map Prod.fst = mixedOutputMap.map Prod.fst ∧
      ∀ p ∈ mixedOutputMap, p.2 = PyVal.none → (p.1, PyVal.none) ∈ out :=
  filter_output_keys_preserved mixedOutputMap
    (by
      intro p hp
      rcases List.mem_cons.mp hp with h | h
      · rw [h]
        exact Or.inr ⟨_, rfl⟩
      · rw [List.mem_singleton.mp h]
        exact Or.inl rfl)

/-- C3 (code bug): after `register_agents()`, the descriptions listing
still contains the key `"ManagerAgent"` — in fact it keeps every
registered key, because `if name not in ("Manager")` tests substring
membership in the string `"Manager"` and `"ManagerAgent"` is not a
substring of `"Manager"`.  The claim (and the spec) say the own entry of
the manager is excluded. -/
theorem manager_key_in_descriptions :
    dcontains (get_agent_descriptions register_agents) "ManagerAgent" = true ∧
      (get_agent_descriptions register_agents).map Prod.fst =
        ["PageNavigatorAgent", "GeneralQAAgent", "FusionAnalyticsAgent",
          "AbsenceAnalyticsAgent", "OrgChartAgent", "ManagerAgent"] :=
  ⟨rfl, rfl⟩

theorem strHasSub_refl (s : String) : strHasSub s s :=
  ⟨[], [], by simp⟩

theorem strHasSub_append_left (pre : String) {hay sub : String} (h : strHasSub hay sub) :
    strHasSub (pre ++ hay) sub := by
  obtain ⟨p, s, hp⟩ := h
  exact ⟨pre.data ++ p, s, by simp [String.data_append, hp]⟩

theorem strHasSub_append_right {hay sub : String} (h : strHasSub hay sub) (suf : String) :
    strHasSub (hay ++ suf) sub := by
  obtain ⟨p, s, hp⟩ := h
  exact ⟨p, s ++ suf.data, by simp [String.data_append, hp]⟩

theorem strHasSub_quoteKey (k : String) : strHasSub (quoteKey k) k :=
  strHasSub_append_right (strHasSub_append_left "\x27" (strHasSub_refl k)) "\x27"

theorem joinKeys_hasSub (keys : List String) (k : String) (h : k ∈ keys) :
    strHasSub (joinKeys keys) k := by
  induction keys with
  | nil => cases h
  | cons k0 rest ih =>
      cases rest with
      | nil =>
          rw [List.mem_singleton.mp h]
          exact strHasSub_quoteKey k0
      | cons r rs =>
          rcases List.mem_cons.mp h with h0 | h0
          · subst h0
            exact strHasSub_append_right
              (strHasSub_append_right (strHasSub_quoteKey k) ", ") (joinKeys (r :: rs))
          · exact strHasSub_append_left (quoteKey k0 ++ ", ") (ih h0)

theorem unknownAgentMessage_hasSub_name (next_agent_name : String) (keys : List String) :
    strHasSub (unknownAgentMessage next_agent_name keys) next_agent_name :=
  strHasSub_append_right
    (strHasSub_append_right
      (strHasSub_append_left "Unknown agent requested by Manager: "
        (strHasSub_refl next_agent_name))
      ". Available agents: ")
    (pyListRepr keys)

theorem unknownAgentMessage_hasSub_key (next_agent_name : String) (keys : List String)
    (k : String) (h : k ∈ keys) :
    strHasSub (unknownAgentMessage next_agent_name keys) k :=
  strHasSub_append_left
    ("Unknown agent requested by Manager: " ++ next_agent_name ++ ". Available agents: ")
    (strHasSub_append_right (strHasSub_append_left "[" (joinKeys_hasSub keys k h)) "]")

/-- C6: whenever the manager names an agent missing from the populated
registry, `run_worker_agent` raises the unknown-agent `ValueError` before
writing anything: the error carries the untouched output map and history,
and its message contains both the offending name and every registered
agent name. -/
theorem run_worker_agent_unknown_agent (next_agent_name : String) (worker_result : PyVal)
    (final_outputs : List (String × PyVal)) (history : List (Entry PyVal))
    (hmiss : get_agent register_agents next_agent_name = Option.none) :
    run_worker_agent register_agents worker_result next_agent_name final_outputs history =
        Except.error
          (unknownAgentMessage next_agent_name
              ((get_agent_descriptions register_agents).map Prod.fst),
            final_outputs, history) ∧
      strHasSub
        (unknownAgentMessage next_agent_name
          ((get_agent_descriptions register_agents).map Prod.fst)) next_agent_name ∧
      ∀ k ∈ register_agents.map Prod.fst,
        strHasSub
          (unknownAgentMessage next_agent_name
            ((get_agent_descriptions register_agents).map Prod.fst)) k := by
  refine ⟨?_, ?_, ?_⟩
  · rw [run_worker_agent, hmiss]
  · exact unknownAgentMessage_hasSub_name _ _
  · intro k hk
    refine unknownAgentMessage_hasSub_key _ _ k ?_
    have hsame : (get_agent_descriptions register_agents).map Prod.fst =
        register_agents.map Prod.fst := rfl
    rw [hsame]
    exact hk

/-- Witness for `run_worker_agent_unknown_agent` at the name
`"NoSuchAgent"` on the empty run state. -/
theorem run_worker_agent_unknown_agent_witness :
    get_agent register_agents "NoSuchAgent" = Option.none ∧
      (run_worker_agent register_agents PyVal.none "NoSuchAgent" [] [] =
          Except.error
            (unknownAgentMessage "NoSuchAgent"
                ((get_agent_descriptions register_agents).map Prod.fst),
              [], []) ∧
        strHasSub
          (unknownAgentMessage "NoSuchAgent"
            ((get_agent_descriptions register_agents).map Prod.fst)) "NoSuchAgent" ∧
        ∀ k ∈ register_agents.map Prod.fst,
          strHasSub
            (unknownAgentMessage "NoSuchAgent"
              ((get_agent_descriptions register_agents).map Prod.fst)) k) :=
  ⟨rfl, run_worker_agent_unknown_agent "NoSuchAgent" PyVal.none [] [] rfl⟩

/-- C4 counterexample: with a fresh gate and a callback that raises,
`update_now` returns `False` to the caller instead of re-raising — the
`except Exception` arm logs and returns, so the exception never
propagates (`smart_db_updater.py` lines 137-139). -/
theorem update_now_swallows_exception_cex :
    update_now (ε := Unit) 5 false 0 (some (Except.error ())) gateStart =
        (Except.ok false, gateStart) ∧
      (update_now (ε := Unit) 5 false 0 (some (Except.error ())) gateStart).1 ≠
        Except.error () := by
  refine ⟨rfl, ?_⟩
  intro h
  simp [update_now, gateStart, should_update] at h

/-- C4 (amended): when the refresh callback raises, `update_now` clears the
in-progress flag (the `finally` arm) and catches the exception, returning
`False` to the caller; the exception is never re-raised. -/
theorem update_now_clears_flag_returns_false {ε : Type} (cooldown_seconds : Int)
    (force : Bool) (now : Int) (e : ε) (s : CooldownState)
    (hprog : s.update_in_progress = false)
    (hgate : force = true ∨ should_update cooldown_seconds now s = true) :
    update_now cooldown_seconds force now (some (Except.error e)) s =
      (Except.ok false, { s with update_in_progress := false }) := by
  rw [update_now, hprog, if_neg (by simp)]
  rcases hgate with h | h
  · rw [h]
    rfl
  · rw [h]
    simp

/-- Witness for `update_now_clears_flag_returns_false` on a fresh gate. -/
theorem update_now_clears_flag_returns_false_witness :
    gateStart.update_in_progress = false ∧
      should_update 5 0 gateStart = true ∧
      update_now (ε := Unit) 5 false 0 (some (Except.error ())) gateStart =
        (Except.ok false, { gateStart with update_in_progress := false }) :=
  ⟨rfl, rfl,
    update_now_clears_flag_returns_false 5 false 0 () gateStart rfl (Or.inr rfl)⟩

/-- C5 counterexample: the callback returns a record whose `status` is not
`"success"`, yet `update_now` still advances `LAST_UPDATE_TIME` (from
`None` to the present instant) and increments `UPDATE_COUNT` — the source
never inspects the callback return value (`smart_db_updater.py` lines
117-131). -/
theorem update_now_nonsuccess_advances_cex :
    statusOf errorStatusRecord ≠ some (PyVal.str "success") ∧
      update_now (ε := Unit) 5 false 0 (some (Except.ok errorStatusRecord)) gateStart =
        (Except.ok true, ⟨some 0, 1, false⟩) := by
  refine ⟨?_, rfl⟩
  intro h
  simp [statusOf, errorStatusRecord, dget] at h

/-- C5 (amended): a refresh callback that returns normally is treated as a
successful refresh regardless of its status record: `update_now` advances
`last_update_timestamp` to the present instant, increments the update
count, clears the in-progress flag and returns `True`; only a thrown
exception prevents the advance. -/
theorem update_now_ignores_status {ε : Type} (cooldown_seconds : Int)
    (force : Bool) (now : Int) (v : PyVal) (s : CooldownState)
    (hprog : s.update_in_progress = false)
    (hgate : force = true ∨ should_update cooldown_seconds now s = true)
    (hstatus : statusOf v ≠ some (PyVal.str "success")) :
    update_now (ε := ε) cooldown_seconds force now (some (Except.ok v)) s =
      (Except.ok true, ⟨some now, s.update_count + 1, false⟩) := by
  rw [update_now, hprog, if_neg (by simp)]
  rcases hgate with h | h
  · rw [h]
    rfl
  · rw [h]
    simp

/-- Witness for `update_now_ignores_status` on a fresh gate and an error
status record. -/
theorem update_now_ignores_status_witness :
    gateStart.update_in_progress = false ∧
      should_update 5 0 gateStart = true ∧
      statusOf errorStatusRecord ≠ some (PyVal.str "success") ∧
      update_now (ε := Unit) 5 false 0 (some (Except.ok errorStatusRecord)) gateStart =
        (Except.ok true, ⟨some 0, 1, false⟩) :=
  ⟨rfl, rfl,
    by
      intro h
      simp [statusOf, errorStatusRecord, dget] at h,
    update_now_ignores_status 5 false 0 errorStatusRecord gateStart rfl (Or.inr rfl)
      (by
        intro h
        simp [statusOf, errorStatusRecord, dget] at h)⟩

theorem selectBest_const (score : String → String → ℚ) (un : String)
    (l : List ExampleEntry) :
    ∀ acc : Option ExampleEntry × ℚ,
      (∀ ex ∈ l, score un (normalizeText ex.user_request) ≤ acc.2) →
        selectBest score un l acc = acc := by
  induction l with
  | nil => intro acc _; rfl
  | cons ex rest ih =>
      intro acc h
      rw [selectBest,
        if_neg (not_lt.mpr (h ex (List.mem_cons_self _ _)))]
      exact ih acc (fun q hq => h q (List.mem_cons_of_mem _ hq))

theorem selectBest_found (score : String → String → ℚ) (un : String)
    (l : List ExampleEntry) :
    ∀ acc : Option ExampleEntry × ℚ,
      (∃ ex ∈ l, acc.2 < score un (normalizeText ex.user_request)) →
        ∃ i : Fin l.length,
          selectBest score un l acc =
              (some (l.get i), score un (normalizeText (l.get i).user_request)) ∧
            acc.2 < score un (normalizeText (l.get i).user_request) ∧
            (∀ j : Fin l.length,
              score un (normalizeText (l.get j).user_request) ≤
                score un (normalizeText (l.get i).user_request)) ∧
            ∀ j : Fin l.length, (j : Nat) < (i : Nat) →
              score un (normalizeText (l.get j).user_request) <
                score un (normalizeText (l.get i).user_request) := by
  induction l with
  | nil =>
      rintro acc ⟨ex, hmem, -⟩
      cases hmem
  | cons ex rest ih =>
      rintro ⟨b, br⟩ hex
      by_cases hlt : br < score un (normalizeText ex.user_request)
      · rw [selectBest, if_pos hlt]
        by_cases hrest : ∃ q ∈ rest,
            score un (normalizeText ex.user_request) < score un (normalizeText q.user_request)
        · obtain ⟨i, hsel, hgt, hmax, hstrict⟩ := ih (some ex, _) hrest
          refine ⟨i.succ, ?_, lt_trans hlt hgt, ?_, ?_⟩
          · exact hsel
          · intro j
            refine Fin.cases ?_ ?_ j
            · exact le_of_lt hgt
            · intro j'
              exact hmax j'
          · intro j
            refine Fin.cases ?_ ?_ j
            · intro _
              exact hgt
            · intro j' hj'
              exact hstrict j' (Nat.lt_of_succ_lt_succ hj')
        · push_neg at hrest
          refine ⟨⟨0, Nat.succ_pos _⟩, ?_, hlt, ?_, ?_⟩
          · exact selectBest_const score un rest _ (fun q hq => hrest q hq)
          · intro j
            refine Fin.cases ?_ ?_ j
            · exact le_refl _
            · intro j'
              exact hrest _ (List.get_mem rest j'.1 j'.2)
          · intro j hj
            exact absurd hj (Nat.not_lt_zero _)
      · have hex' : ∃ q ∈ rest, br < score un (normalizeText q.user_request) := by
          obtain ⟨e0, he0, hgt0⟩ := hex
          rcases List.mem_cons.mp he0 with h0 | h0
          · rw [h0] at hgt0
            exact absurd hgt0 hlt
          · exact ⟨e0, h0, hgt0⟩
        obtain ⟨i, hsel, hgt, hmax, hstrict⟩ := ih (b, br) hex'
        refine ⟨i.succ, ?_, hgt, ?_, ?_⟩
        · rw [selectBest, if_neg hlt]
          exact hsel
        · intro j
          refine Fin.cases ?_ ?_ j
          · exact le_trans (not_lt.mp hlt) (le_of_lt hgt)
          · intro j'
            exact hmax j'
        · intro j
          refine Fin.cases ?_ ?_ j
          · intro _
            exact lt_of_le_of_lt (not_lt.mp hlt) hgt
          · intro j' hj'
            exact hstrict j' (Nat.lt_of_succ_lt_succ hj')

/-- C10: with the default threshold `0.5` of the source, the fast-path matcher
is a pure function of its inputs that returns `None` when no example
similarity score on the normalized strings reaches the threshold, and
otherwise returns the example achieving the maximal score, ties broken in
favour of the earliest example (the strictly-greater update never replaces
an earlier equal-score best). -/
theorem match_example_request_selection (score : String → String → ℚ)
    (user_request : String) (examples : List ExampleEntry) :
    ((∀ ex ∈ examples,
        score (normalizeText user_request) (normalizeText ex.user_request) < 1/2) →
      match_example_request score user_request examples (1/2) = Option.none) ∧
    ((∃ ex ∈ examples,
        (1/2 : ℚ) ≤ score (normalizeText user_request) (normalizeText ex.user_request)) →
      ∃ i : Fin examples.length,
        match_example_request score user_request examples (1/2) = some (examples.get i) ∧
          (1/2 : ℚ) ≤
            score (normalizeText user_request) (normalizeText (examples.get i).user_request) ∧
          (∀ j : Fin examples.length,
            score (normalizeText user_request) (normalizeText (examples.get j).user_request) ≤
              score (normalizeText user_request)
                (normalizeText (examples.get i).user_request)) ∧
          ∀ j : Fin examples.length, (j : Nat) < (i : Nat) →
            score (normalizeText user_request) (normalizeText (examples.get j).user_request) <
              score (normalizeText user_request)
                (normalizeText (examples.get i).user_request)) := by
  constructor
  · intro hall
    by_cases hpos : ∃ ex ∈ examples,
        ((Option.none : Option ExampleEntry), (0 : ℚ)).2 <
          score (normalizeText user_request) (normalizeText ex.user_request)
    · obtain ⟨i, hsel, -, -, -⟩ :=
        selectBest_found score (normalizeText user_request) examples (Option.none, 0) hpos
      have hlt2 : score (normalizeText user_request)
          (normalizeText (examples.get i).user_request) < 1/2 :=
        hall _ (List.get_mem examples i.1 i.2)
      rw [match_example_request, hsel, if_neg (not_le.mpr hlt2)]
    · push_neg at hpos
      rw [match_example_request,
        selectBest_const score (normalizeText user_request) examples (Option.none, 0) hpos,
        if_neg (by norm_num)]
  · intro hex
    have hpos : ∃ ex ∈ examples,
        ((Option.none : Option ExampleEntry), (0 : ℚ)).2 <
          score (normalizeText user_request) (normalizeText ex.user_request) := by
      obtain ⟨ex, hm, hs⟩ := hex
      exact ⟨ex, hm, lt_of_lt_of_le (by norm_num) hs⟩
    obtain ⟨i, hsel, -, hmax, hstrict⟩ :=
      selectBest_found score (normalizeText user_request) examples (Option.none, 0) hpos
    obtain ⟨ex, hm, hs⟩ := hex
    obtain ⟨j, hj⟩ := List.mem_iff_get.mp hm
    have hhalf : (1/2 : ℚ) ≤
        score (normalizeText user_request) (normalizeText (examples.get i).user_request) := by
      rw [← hj] at hs
      exact le_trans hs (hmax j)
    refine ⟨i, ?_, hhalf, hmax, hstrict⟩
    rw [match_example_request, hsel, if_pos hhalf]

/-- Witness for `match_example_request_selection` on a one-example list
whose stored request normalizes to the same string as the query. -/
theorem match_example_request_selection_witness :
    (∃ ex ∈ [exampleDashboard],
        (1/2 : ℚ) ≤ exactScore (normalizeText "open the dashboard for me")
          (normalizeText ex.user_request)) ∧
      ∃ i : Fin ([exampleDashboard] : List ExampleEntry).length,
        match_example_request exactScore "open the dashboard for me" [exampleDashboard] (1/2) =
            some (([exampleDashboard] : List ExampleEntry).get i) ∧
          (1/2 : ℚ) ≤ exactScore (normalizeText "open the dashboard for me")
            (normalizeText (([exampleDashboard] : List ExampleEntry).get i).user_request) ∧
          (∀ j : Fin ([exampleDashboard] : List ExampleEntry).length,
            exactScore (normalizeText "open the dashboard for me")
                (normalizeText (([exampleDashboard] : List ExampleEntry).get j).user_request) ≤
              exactScore (normalizeText "open the dashboard for me")
                (normalizeText (([exampleDashboard] : List ExampleEntry).get i).user_request)) ∧
          ∀ j : Fin ([exampleDashboard] : List ExampleEntry).length, (j : Nat) < (i : Nat) →
            exactScore (normalizeText "open the dashboard for me")
                (normalizeText (([exampleDashboard] : List ExampleEntry).get j).user_request) <
              exactScore (normalizeText "open the dashboard for me")
                (normalizeText (([exampleDashboard] : List ExampleEntry).get i).user_request) := by
  have heq : normalizeText "open the dashboard for me" =
      normalizeText exampleDashboard.user_request := by decide
  have hsc : (1/2 : ℚ) ≤ exactScore (normalizeText "open the dashboard for me")
      (normalizeText exampleDashboard.user_request) := by
    rw [exactScore, if_pos heq]
    norm_num
  have hex : ∃ ex ∈ [exampleDashboard],
      (1/2 : ℚ) ≤ exactScore (normalizeText "open the dashboard for me")
        (normalizeText ex.user_request) :=
    ⟨exampleDashboard, List.mem_singleton.mpr rfl, hsc⟩
  exact ⟨hex,
    (match_example_request_selection exactScore "open the dashboard for me"
      [exampleDashboard]).2 hex⟩

/-- Witness for `stop_handlers_summarizer_entry` on an empty run state. -/
theorem stop_handlers_summarizer_entry_witness :
    dcontains
        (handle_manager_stop (PyVal.dict [("response", PyVal.str "done")]) [] []).1
        "GeneralQAAgent" = true ∧
      (dcontains
          (handle_convergence (PyVal.dict [("response", PyVal.str "done")]) [] []).1
          "GeneralQAAgent" = true ↔
        (truthy (lastWorkerOutput []) = true ∨
          dcontains ([] : List (String × PyVal)) "GeneralQAAgent" = true)) :=
  stop_handlers_summarizer_entry (PyVal.dict [("response", PyVal.str "done")]) [] []
